import Mathlib

/-!
# Verification of the stuiplot data-reduction and alignment pipeline

A shallow embedding of `stuiplot.py`: the per-metric column selection and
cross-core averaging (`get_mean_series_util` / `get_mean_series_freq` /
`get_mean_series_temp`), the time alignment performed inside `_plot_stui_log`
(threshold scan over the `Util:Avg` column, minute offsets), the fixed panel
geometry (y-limits, x-limits, tick placement), and the per-log composition
loop of `plot_stui_logs`.

Tables are modelled positionally: a `LogTable` has a list of column names, a
list of timestamps (seconds), and one list of optional rational values per
row (`none` models a NaN / missing cell, as pandas represents it).
-/

set_option autoImplicit false

/-- A parsed s-tui log table, as produced by `read_log`: named columns, a
strictly increasing timestamp index (modelled in seconds), and one row of
optional numeric cells per timestamp (`none` = NaN). -/
structure LogTable where
  columns : List String
  timestamps : List Int
  rows : List (List (Option ℚ))
  deriving DecidableEq

/-- Computes `cs.all Char.isDigit && !cs.isEmpty`: the `\d+` part of the column
regexes, over the explicit character list of a name. -/
def digits1 (cs : List Char) : Bool :=
  !cs.isEmpty && cs.all Char.isDigit

/-- Models `re.fullmatch(r"Util:Core \d+", c)`: the whole name is the literal
`"Util:Core "` followed by one or more digits. -/
def match_util (c : String) : Bool :=
  (c.toList.take 10 == "Util:Core ".toList) && digits1 (c.toList.drop 10)

/-- Models `re.fullmatch(r"Frequency:Core \d+", c)`. -/
def match_freq (c : String) : Bool :=
  (c.toList.take 15 == "Frequency:Core ".toList) && digits1 (c.toList.drop 15)

/-- Models `re.fullmatch(r"Temp:Core\d+,0", c)`: literal `"Temp:Core"`, one or more
digits, then the literal suffix `",0"`. -/
def match_temp (c : String) : Bool :=
  let cs := c.toList
  let rest := cs.drop 9
  (cs.take 9 == "Temp:Core".toList) &&
    digits1 (rest.take (rest.length - 2)) &&
    (rest.drop (rest.length - 2) == [',', '0'])

/-- Positions of the columns whose name satisfies the metric's pattern, in
column order: the list comprehension `[c for c in log_frame.columns if
re.fullmatch(..., c)]` followed by the positional column extraction of
`log_frame[columns]`. -/
def matched_columns (t : LogTable) (p : String → Bool) : List Nat :=
  (List.range t.columns.length).filter (fun j => p (t.columns.getD j ""))

/-- The cells of one row at the given column positions. -/
def row_values (r : List (Option ℚ)) (js : List Nat) : List (Option ℚ) :=
  js.map (fun j => (r.get? j).getD none)

/-- pandas `mean(axis=1)` with the default `skipna=True` on one row: the
arithmetic mean of the present values, NaN (`none`) when none is present. -/
def mean_skipna (vs : List (Option ℚ)) : Option ℚ :=
  let present := vs.filterMap id
  if present.length = 0 then none
  else some (present.sum / (present.length : ℚ))

/-- Models `log_frame[matched columns].mean(axis=1)`: one optional mean per row. -/
def mean_series (t : LogTable) (p : String → Bool) : List (Option ℚ) :=
  t.rows.map (fun r => mean_skipna (row_values r (matched_columns t p)))

/-- Source `get_mean_series_util`: utilization as mean over the `Util:Core <n>`
columns. -/
def get_mean_series_util (t : LogTable) : List (Option ℚ) :=
  mean_series t match_util

/-- Source `get_mean_series_freq`: frequency as mean over the `Frequency:Core <n>`
columns. -/
def get_mean_series_freq (t : LogTable) : List (Option ℚ) :=
  mean_series t match_freq

/-- Source `get_mean_series_temp`: temperature as mean over the `Temp:Core<n>,0`
columns. -/
def get_mean_series_temp (t : LogTable) : List (Option ℚ) :=
  mean_series t match_temp

/-- The errors the pipeline can signal. `noThresholdCrossing` is the
`ValueError("No utilization values over align threshold ...")` raised in
`_plot_stui_log`; `keyError` is the pandas `KeyError` raised by
`log_frame["Util:Avg"]` when the column is absent. `timestampParse` and
`emptyMetric` are the spec's remaining declared kinds; the embedded code
never produces them. -/
inductive PlotError where
  | timestampParse (log : String) (row : Nat)
  | emptyMetric (metric : String) (log : String)
  | noThresholdCrossing (threshold : Int)
  | keyError (column : String)
  deriving DecidableEq

/-- Index of the first element satisfying `p`: `np.where(mask)[0][0]`
(also used for the first-occurrence column lookup). -/
def find_idx {α : Type} (p : α → Bool) : List α → Option Nat
  | [] => none
  | a :: as => if p a then some 0 else (find_idx p as).map (· + 1)

/-- Models `log_frame[name]`: the column's cell series when a column with that name
exists, `none` (a `KeyError` in pandas) otherwise. -/
def col_series? (t : LogTable) (name : String) : Option (List (Option ℚ)) :=
  (find_idx (fun c => c == name) t.columns).map
    (fun j => t.rows.map (fun r => (r.get? j).getD none))

/-- Compares `value > align_threshold` on an optional cell: a NaN compares `False`
against the threshold in pandas. -/
def opt_gt (v : Option ℚ) (a : Int) : Bool :=
  match v with
  | some x => decide ((a : ℚ) < x)
  | none => false

/-- Lines 64-74 of `_plot_stui_log`: with a threshold, scan the `Util:Avg`
column for the first value strictly over it (`KeyError` if the column is
missing, `ValueError` if no value crosses); without a threshold the
reference row is 0. -/
def load_start_index (t : LogTable) (align_threshold : Option Int) :
    Except PlotError Nat :=
  match align_threshold with
  | none => .ok 0
  | some a =>
    match col_series? t "Util:Avg" with
    | none => .error (.keyError "Util:Avg")
    | some avg =>
      match find_idx (fun v => opt_gt v a) avg with
      | none => .error (.noThresholdCrossing a)
      | some i => .ok i

/-- Lines 75-76 of `_plot_stui_log`:
`(log_frame.index - load_start_time).total_seconds() / 60`. -/
def minutes_offsets (t : LogTable) (i : Nat) : List ℚ :=
  let t0 := t.timestamps.getD i 0
  t.timestamps.map (fun (s : Int) => ((s : ℚ) - (t0 : ℚ)) / 60)

/-- Computes `(minutes_max // major_div) * major_div + 1` with `major_div = 5`
(Python floor division). -/
def major_range_max (minutes_max : Int) : Int :=
  (Int.fdiv minutes_max 5) * 5 + 1

/-- Python `range(0, stop, step)` for a positive `step`, as a list of
integers. -/
def py_range (stop step : Int) : List Int :=
  (List.range (((max stop 0 + step - 1) / step).toNat)).map
    (fun (k : Nat) => step * (k : Int))

/-- Everything `_plot_stui_log` draws into one grid column: the three metric
series, the minute offsets, and the fixed axis setup. -/
structure ColumnPlot where
  util_values : List (Option ℚ)
  freq_values : List (Option ℚ)
  temp_values : List (Option ℚ)
  minutes : List ℚ
  ylim_util : ℚ × ℚ
  ylim_freq : ℚ × ℚ
  ylim_temp : ℚ × ℚ
  xlim : Int × Int
  xticks_major : List Int
  xticks_minor : List Int
  deriving DecidableEq

/-- Source `_plot_stui_log`: aggregate the three metrics, compute the alignment
reference and minute offsets, and set the fixed axis limits and ticks. -/
def plot_stui_log (t : LogTable) (minutes_max : Int)
    (align_threshold : Option Int) : Except PlotError ColumnPlot :=
  match load_start_index t align_threshold with
  | .error e => .error e
  | .ok i =>
    let minutes_min : Int := if align_threshold.isSome then -1 else 0
    .ok
      { util_values := get_mean_series_util t
        freq_values := get_mean_series_freq t
        temp_values := get_mean_series_temp t
        minutes := minutes_offsets t i
        ylim_util := (-2, 102)
        ylim_freq := (0, 5000)
        ylim_temp := (25, 110)
        xlim := (minutes_min, minutes_max)
        xticks_major := py_range (major_range_max minutes_max) 5
        xticks_minor := py_range (major_range_max minutes_max) 1 }

/-- The composed figure: `plt.subplots(3, len(log_frames), ...)` plus the
per-log columns filled in caller order. -/
structure Figure where
  nrows : Nat
  ncols : Nat
  columnPlots : List (String × ColumnPlot)
  deriving DecidableEq

/-- The per-log loop of `plot_stui_logs`: process the logs in order; the
first exception aborts the whole loop and propagates unmodified. -/
def plot_columns (align_threshold : Option Int) (minutes_max : Int) :
    List (String × LogTable) → Except PlotError (List (String × ColumnPlot))
  | [] => .ok []
  | (label, t) :: rest =>
    match plot_stui_log t minutes_max align_threshold with
    | .error e => .error e
    | .ok cp =>
      match plot_columns align_threshold minutes_max rest with
      | .error e => .error e
      | .ok cps => .ok ((label, cp) :: cps)

/-- Source `plot_stui_logs` up to the point where the finished figure exists: a
3-row grid with one column per log, or the first error. -/
def plot_stui_logs (log_frames : List (String × LogTable))
    (align_threshold : Option Int) (minutes_max : Int) :
    Except PlotError Figure :=
  match plot_columns align_threshold minutes_max log_frames with
  | .error e => .error e
  | .ok cols => .ok { nrows := 3, ncols := log_frames.length, columnPlots := cols }

/-- The renderer-sink hand-off at the end of `plot_stui_logs`:
`fig.savefig(figure_path)` when a path is given, `plt.show()` otherwise. -/
inductive RenderAction where
  | savedTo (path : String) (fig : Figure)
  | displayed (fig : Figure)
  deriving DecidableEq

/-- A full run: compose the figure, then either save or display it. An
exception raised while composing skips the hand-off entirely. -/
def run_plot (log_frames : List (String × LogTable))
    (figure_path : Option String) (align_threshold : Option Int)
    (minutes_max : Int) : Except PlotError RenderAction :=
  match plot_stui_logs log_frames align_threshold minutes_max with
  | .error e => .error e
  | .ok fig =>
    .ok (match figure_path with
         | some p => .savedTo p fig
         | none => .displayed fig)

instance {ε α : Type} [DecidableEq ε] [DecidableEq α] :
    DecidableEq (Except ε α) := fun a b =>
  match a, b with
  | .error e, .error e' =>
    if h : e = e' then .isTrue (by rw [h]) else .isFalse (by simp [h])
  | .error _, .ok _ => .isFalse (by simp)
  | .ok _, .error _ => .isFalse (by simp)
  | .ok v, .ok v' =>
    if h : v = v' then .isTrue (by rw [h]) else .isFalse (by simp [h])

/-! ## Specification-side definitions

Independent re-statements of the spec's wording, used to compare against the
code-side definitions above. -/

/-- The spec's naming convention for utilization columns, stated as a string
decomposition: the name is exactly `"Util:Core "` followed by a non-empty
digit string. -/
def util_exact (c : String) : Prop :=
  ∃ ds : List Char, ds ≠ [] ∧ (∀ ch ∈ ds, ch.isDigit) ∧
    c.toList = "Util:Core ".toList ++ ds

/-- The spec's naming convention for frequency columns: exactly
`"Frequency:Core "` followed by a non-empty digit string. -/
def freq_exact (c : String) : Prop :=
  ∃ ds : List Char, ds ≠ [] ∧ (∀ ch ∈ ds, ch.isDigit) ∧
    c.toList = "Frequency:Core ".toList ++ ds

/-- The spec's naming convention for temperature columns: exactly
`"Temp:Core"`, a non-empty digit string, then `",0"`. -/
def temp_exact (c : String) : Prop :=
  ∃ ds : List Char, ds ≠ [] ∧ (∀ ch ∈ ds, ch.isDigit) ∧
    c.toList = "Temp:Core".toList ++ ds ++ [',', '0']

/-- The matched cells of row `i` read off the spec's way: walk the columns
in order next to the row's cells and keep the cells under matching names. -/
def matched_row_values (t : LogTable) (p : String → Bool) (i : Nat) :
    List (Option ℚ) :=
  ((t.columns.zip (t.rows.getD i [])).filter (fun cv => p cv.1)).map Prod.snd

/-- The threshold-alignment reference as the spec's words describe it: scan
the utilization average computed via the aggregator (not the `Util:Avg`
column) for the first value strictly over the threshold. -/
def ref_index_by_computed_avg (t : LogTable) (a : Int) : Option Nat :=
  find_idx (fun v => opt_gt v a) (get_mean_series_util t)

/-! ## Concrete tables used as witnesses and counterexamples -/

/-- A table whose computed per-core utilization average `[10, 90]` and whose
pre-aggregated `Util:Avg` column `[90, 10]` disagree in every row. -/
def c1_table : LogTable :=
  { columns := ["Util:Core 0", "Util:Avg"]
    timestamps := [0, 60]
    rows := [[some 10, some 90], [some 90, some 10]] }

/-- A table in which no column matches any per-core metric convention. -/
def c2_table : LogTable :=
  { columns := ["Util:Avg"]
    timestamps := [0, 60]
    rows := [[some 10], [some 20]] }

/-- The spec's worked threshold example: utilization averages
`[1, 2, 7, 9, 3]`, one sample per minute. -/
def c3_table : LogTable :=
  { columns := ["Util:Core 0", "Util:Avg"]
    timestamps := [0, 60, 120, 180, 240]
    rows := [[some 1, some 1], [some 2, some 2], [some 7, some 7],
             [some 9, some 9], [some 3, some 3]] }

/-- A small well-formed table with all three metrics and a `Util:Avg`
column; its utilization crosses the threshold 50 at row 1. -/
def ok_table : LogTable :=
  { columns := ["Util:Core 0", "Util:Core 1", "Frequency:Core 0",
                "Temp:Core0,0", "Util:Avg"]
    timestamps := [0, 60, 120]
    rows := [[some 10, some 20, some 2000, some 40, some 15],
             [some 80, some 90, some 3000, some 60, some 85],
             [some 70, none, some 2500, some 55, some 70]] }

/-- A table with per-core utilization columns but no `Util:Avg` column. -/
def no_avg_table : LogTable :=
  { columns := ["Util:Core 0", "Frequency:Core 0", "Temp:Core0,0"]
    timestamps := [0, 60]
    rows := [[some 10, some 2000, some 40], [some 90, some 3000, some 60]] }

/-- Extract the figure from a successful composition (dummy on error). -/
def fig_of (r : Except PlotError Figure) : Figure :=
  match r with
  | .ok f => f
  | .error _ => { nrows := 0, ncols := 0, columnPlots := [] }

/-! ## Helper lemmas -/

theorem find_idx_eq_none {α : Type} (p : α → Bool) (l : List α) :
    find_idx p l = none ↔ ∀ x ∈ l, p x = false := by
  induction l with
  | nil => simp [find_idx]
  | cons a as ih =>
    by_cases hpa : p a
    · simp [find_idx, hpa]
    · simp [find_idx, hpa, Option.map_eq_none', ih]

theorem find_idx_eq_some {α : Type} (p : α → Bool) (l : List α) (i : Nat)
    (h : find_idx p l = some i) :
    i < l.length ∧ (∀ x, l.get? i = some x → p x = true) ∧
      ∀ j, j < i → ∀ x, l.get? j = some x → p x = false := by
  induction l generalizing i with
  | nil => simp [find_idx] at h
  | cons a as ih =>
    by_cases hpa : p a
    · simp [find_idx, hpa] at h
      subst h
      refine ⟨by simp, ?_, by omega⟩
      intro x hx
      simp only [List.get?] at hx
      cases hx
      exact hpa
    · simp [find_idx, hpa, Option.map_eq_some'] at h
      obtain ⟨i', hi', rfl⟩ := h
      obtain ⟨h1, h2, h3⟩ := ih i' hi'
      refine ⟨by simpa using h1, ?_, ?_⟩
      · intro x hx
        exact h2 x (by simpa using hx)
      · intro j hj x hx
        cases j with
        | zero =>
          simp only [List.get?] at hx
          cases hx
          simpa using hpa
        | succ j => exact h3 j (by omega) x (by simpa using hx)

theorem getD_map_of_lt {α β : Type} (f : α → β) (l : List α) (j : Nat)
    (hj : j < l.length) (d : β) (d' : α) :
    (l.map f).getD j d = f (l.getD j d') := by
  rw [List.getD_eq_get?, List.getD_eq_get?, List.get?_map,
    List.get?_eq_get hj]
  simp

theorem minutes_offsets_getD (t : LogTable) (i j : Nat)
    (hj : j < t.timestamps.length) :
    (minutes_offsets t i).getD j 0 =
      ((t.timestamps.getD j 0 : ℚ) - (t.timestamps.getD i 0 : ℚ)) / 60 := by
  unfold minutes_offsets
  exact getD_map_of_lt _ _ _ hj _ _

theorem getD_eq_get_of_lt {α : Type} (l : List α) (d : α) (j : Nat)
    (h : j < l.length) : l.getD j d = l.get ⟨j, h⟩ := by
  rw [List.getD_eq_get?, List.get?_eq_get h]
  rfl

theorem getD_mem_of_lt {α : Type} (l : List α) (j : Nat) (h : j < l.length)
    (d : α) : l.getD j d ∈ l := by
  rw [getD_eq_get_of_lt l d j h]
  exact l.get_mem _ _

theorem col_series_length (t : LogTable) (name : String)
    (avg : List (Option ℚ)) (h : col_series? t name = some avg) :
    avg.length = t.rows.length := by
  unfold col_series? at h
  cases hfi : find_idx (fun c => c == name) t.columns with
  | none => rw [hfi] at h; cases h
  | some j =>
    rw [hfi] at h
    cases h
    simp

theorem load_start_index_some_ok (t : LogTable) (a : Int) (i : Nat) :
    load_start_index t (some a) = .ok i ↔
      ∃ avg, col_series? t "Util:Avg" = some avg ∧
        find_idx (fun v => opt_gt v a) avg = some i := by
  unfold load_start_index
  cases hcs : col_series? t "Util:Avg" with
  | none => simp
  | some avg =>
    cases hf : find_idx (fun v => opt_gt v a) avg with
    | none => simp [hf]
    | some j => simp [hf]

theorem col_series_isNone (t : LogTable) (name : String)
    (h : name ∉ t.columns) : col_series? t name = none := by
  unfold col_series?
  rw [(find_idx_eq_none _ _).2 ?_]
  · rfl
  · intro c hc
    exact beq_eq_false_iff_ne.2 (fun hcn => h (hcn ▸ hc))

/-! ## Claim C1: which series the threshold scan reads -/

/-- C1 counterexample: on `c1_table` the computed cross-core utilization
average is `[10, 90]` while the `Util:Avg` column is `[90, 10]`; with
threshold 50 the claim predicts reference index 1 (from the computed
average), but the code's scan of the `Util:Avg` column yields index 0. -/
theorem c1_counterexample :
    get_mean_series_util c1_table = [some 10, some 90] ∧
    col_series? c1_table "Util:Avg" = some [some 90, some 10] ∧
    ref_index_by_computed_avg c1_table 50 = some 1 ∧
    load_start_index c1_table (some 50) = Except.ok 0 ∧
    (0 : Nat) ≠ 1 := by
  have hmc : matched_columns c1_table match_util = [0] := by decide
  have hutil : get_mean_series_util c1_table = [some 10, some 90] := by
    unfold get_mean_series_util mean_series
    rw [hmc]
    norm_num [c1_table, row_values, mean_skipna, List.filterMap_cons,
      List.filterMap_nil]
  refine ⟨hutil, by decide, ?_, by decide, by decide⟩
  unfold ref_index_by_computed_avg
  rw [hutil]
  norm_num [find_idx, opt_gt]

/-- C1 (amended): in threshold-aligned mode the scanned series is the
pre-aggregated `Util:Avg` column; for every table where the computed
average differs from that column, the reference index is the one
determined by the `Util:Avg` column. -/
theorem c1_reference_from_util_avg_column (t : LogTable) (a : Int)
    (avg : List (Option ℚ)) (h : col_series? t "Util:Avg" = some avg)
    (hne : get_mean_series_util t ≠ avg) :
    ∀ i, load_start_index t (some a) = .ok i ↔
      find_idx (fun v => opt_gt v a) avg = some i := by
  intro i
  simp only [load_start_index, h]
  cases hf : find_idx (fun v => opt_gt v a) avg with
  | none => simp
  | some j => simp

/-- C1 witness: the amended statement applied to `c1_table`. -/
theorem c1_witness :
    load_start_index c1_table (some 50) = .ok 0 ↔
      find_idx (fun v => opt_gt v 50)
        [some (90 : ℚ), some (10 : ℚ)] = some 0 := by
  have hmc : matched_columns c1_table match_util = [0] := by decide
  have hutil : get_mean_series_util c1_table = [some 10, some 90] := by
    unfold get_mean_series_util mean_series
    rw [hmc]
    norm_num [c1_table, row_values, mean_skipna, List.filterMap_cons,
      List.filterMap_nil]
  exact c1_reference_from_util_avg_column c1_table 50
    [some (90 : ℚ), some (10 : ℚ)] (by decide) (by rw [hutil]; decide) 0

/-! ## Claim C2: zero matching columns -/

/-- Shared helper: with no matching column, every row's mean is taken over
an empty selection and comes out missing. -/
theorem mean_series_of_no_matched (t : LogTable) (p : String → Bool)
    (h : t.columns.filter p = []) :
    mean_series t p = t.rows.map (fun _ => none) := by
  have hmc : matched_columns t p = [] := by
    unfold matched_columns
    rw [List.filter_eq_nil]
    intro j hj
    have hjlt : j < t.columns.length := List.mem_range.1 hj
    have hmem : t.columns.getD j "" ∈ t.columns :=
      getD_mem_of_lt _ _ hjlt _
    simpa using List.filter_eq_nil.1 h _ hmem
  unfold mean_series
  apply List.map_congr
  intro r _
  simp [hmc, row_values, mean_skipna]

/-- C2 counterexample: `c2_table` has zero columns matching the utilization
convention, yet the aggregation returns an all-missing series of full row
count instead of failing (the aggregation functions are total; no
`EmptyMetricError` exists in the code). -/
theorem c2_counterexample :
    c2_table.columns.filter match_util = [] ∧
    get_mean_series_util c2_table = [none, none] ∧
    (get_mean_series_util c2_table).length = c2_table.rows.length := by
  refine ⟨by decide, by decide, by decide⟩

/-- C2 (amended): for every LogTable in which zero column names match a
requested metric's naming convention, the aggregation silently returns a
series of the table's row count whose every entry is missing; no error is
raised. -/
theorem c2_zero_match_all_missing (t : LogTable) :
    (t.columns.filter match_util = [] →
      get_mean_series_util t = t.rows.map (fun _ => none)) ∧
    (t.columns.filter match_freq = [] →
      get_mean_series_freq t = t.rows.map (fun _ => none)) ∧
    (t.columns.filter match_temp = [] →
      get_mean_series_temp t = t.rows.map (fun _ => none)) :=
  ⟨fun h => mean_series_of_no_matched t match_util h,
   fun h => mean_series_of_no_matched t match_freq h,
   fun h => mean_series_of_no_matched t match_temp h⟩

/-- C2 witness: the amended statement applied to `c2_table`. -/
theorem c2_witness :
    c2_table.columns.filter match_util = [] ∧
    get_mean_series_util c2_table = c2_table.rows.map (fun _ => none) :=
  ⟨by decide, (c2_zero_match_all_missing c2_table).1 (by decide)⟩

/-! ## Claim C4: `NoThresholdCrossingError` iff no crossing -/

/-- C4: with the `Util:Avg` column present, the alignment fails with the
no-crossing error exactly when no entry strictly exceeds the threshold;
when some entry exceeds it, a reference index is returned; and no other
error can come out of the threshold scan. -/
theorem c4_no_crossing_iff (t : LogTable) (a : Int) (avg : List (Option ℚ))
    (h : col_series? t "Util:Avg" = some avg) :
    (load_start_index t (some a) = .error (.noThresholdCrossing a) ↔
      ∀ v ∈ avg, opt_gt v a = false) ∧
    ((∃ v ∈ avg, opt_gt v a = true) →
      ∃ i, load_start_index t (some a) = .ok i) ∧
    (∀ e, load_start_index t (some a) = .error e →
      e = .noThresholdCrossing a) := by
  simp only [load_start_index, h]
  cases hf : find_idx (fun v => opt_gt v a) avg with
  | none =>
    simp only [hf]
    refine ⟨iff_of_true trivial ((find_idx_eq_none _ avg).1 hf), ?_, ?_⟩
    · rintro ⟨v, hv, hgt⟩
      have := (find_idx_eq_none _ avg).1 hf v hv
      rw [hgt] at this
      cases this
    · intro e he
      injection he with he
      exact he.symm
  | some i =>
    simp only [hf]
    obtain ⟨hlen, h2, _⟩ := find_idx_eq_some _ _ _ hf
    refine ⟨?_, fun _ => ⟨i, rfl⟩, fun e he => Except.noConfusion he⟩
    constructor
    · intro he
      exact Except.noConfusion he
    · intro hall
      have hv := h2 (avg.get ⟨i, hlen⟩) (List.get?_eq_get hlen)
      have hm := hall (avg.get ⟨i, hlen⟩) (avg.get_mem i hlen)
      rw [hm] at hv
      cases hv

/-- C4 witness: applied to the spec's worked example table. -/
theorem c4_witness :
    ((load_start_index c3_table (some 5) = .error (.noThresholdCrossing 5)) ↔
      ∀ v ∈ ([some 1, some 2, some 7, some 9, some 3] : List (Option ℚ)),
        opt_gt v 5 = false) ∧
    ((∃ v ∈ ([some 1, some 2, some 7, some 9, some 3] : List (Option ℚ)),
        opt_gt v 5 = true) →
      ∃ i, load_start_index c3_table (some 5) = .ok i) ∧
    (∀ e, load_start_index c3_table (some 5) = .error e →
      e = .noThresholdCrossing 5) :=
  c4_no_crossing_iff c3_table 5
    [some 1, some 2, some 7, some 9, some 3] (by decide)

/-! ## Claim C3: reference rows and minute offsets -/

/-- C3: in unaligned mode the reference is row 0 and each offset equals
`(timestamp[i] - timestamp[0]) / 60`, starting at 0; in threshold-aligned
mode the reference returned is the first row of the scanned series strictly
over the threshold, the offset at the reference row is 0, and offsets of
earlier rows are negative. -/
theorem c3_alignment_offsets (t : LogTable)
    (hlen : t.timestamps.length = t.rows.length)
    (hmono : t.timestamps.Pairwise (· < ·)) :
    (load_start_index t none = .ok 0 ∧
      (∀ j, j < t.timestamps.length →
        (minutes_offsets t 0).getD j 0 =
          ((t.timestamps.getD j 0 : ℚ) - (t.timestamps.getD 0 0 : ℚ)) / 60) ∧
      (0 < t.timestamps.length → (minutes_offsets t 0).getD 0 0 = 0)) ∧
    (∀ a i, load_start_index t (some a) = .ok i →
      (∃ avg, col_series? t "Util:Avg" = some avg ∧
        (∀ x, avg.get? i = some x → opt_gt x a = true) ∧
        ∀ j, j < i → ∀ x, avg.get? j = some x → opt_gt x a = false) ∧
      (minutes_offsets t i).getD i 0 = 0 ∧
      ∀ j, j < i → (minutes_offsets t i).getD j 0 < 0) := by
  refine ⟨⟨rfl, ?_, ?_⟩, ?_⟩
  · intro j hj
    exact minutes_offsets_getD t 0 j hj
  · intro h0
    rw [minutes_offsets_getD t 0 0 h0]
    simp
  · intro a i hok
    rw [load_start_index_some_ok] at hok
    obtain ⟨avg, hcs, hf⟩ := hok
    obtain ⟨hilen, hat, hbefore⟩ := find_idx_eq_some _ _ _ hf
    have havglen : avg.length = t.rows.length :=
      col_series_length t _ avg hcs
    have hits : i < t.timestamps.length := by
      rw [hlen]
      omega
    refine ⟨⟨avg, hcs, hat, hbefore⟩, ?_, ?_⟩
    · rw [minutes_offsets_getD t i i hits]
      simp
    · intro j hj
      have hjts : j < t.timestamps.length := by omega
      rw [minutes_offsets_getD t i j hjts]
      apply div_neg_of_neg_of_pos
      · rw [sub_neg]
        have hlt := List.pairwise_iff_get.1 hmono ⟨j, hjts⟩ ⟨i, hits⟩ hj
        rw [getD_eq_get_of_lt _ _ _ hjts, getD_eq_get_of_lt _ _ _ hits]
        exact_mod_cast hlt
      · norm_num

/-- C3 witness: the spec's worked example, scanned series `[1, 2, 7, 9, 3]`
and threshold 5: reference index 2, zero offset there, negative offsets
before it; plus the unaligned facts. -/
theorem c3_witness :
    load_start_index c3_table (some 5) = .ok 2 ∧
    (minutes_offsets c3_table 2).getD 2 0 = 0 ∧
    (minutes_offsets c3_table 2).getD 0 0 < 0 ∧
    (minutes_offsets c3_table 2).getD 1 0 < 0 ∧
    load_start_index c3_table none = .ok 0 ∧
    (minutes_offsets c3_table 0).getD 0 0 = 0 := by
  have h := c3_alignment_offsets c3_table (by decide) (by decide)
  have h2 := h.2 5 2 (by decide)
  exact ⟨by decide, h2.2.1, h2.2.2 0 (by omega), h2.2.2 1 (by omega),
    h.1.1, h.1.2.2 (by decide)⟩

/-! ## Claim C5: aggregator output shape and row-wise means -/

/-- Shared helper: reading a row's cells at the matched column positions is
the same as walking the columns next to the row's cells and keeping the
cells under matching names. -/
theorem row_values_matched (cols : List String) (r : List (Option ℚ))
    (p : String → Bool) (h : r.length = cols.length) :
    ((List.range cols.length).filter (fun j => p (cols.getD j ""))).map
        (fun j => (r.get? j).getD none) =
      ((cols.zip r).filter (fun cv => p cv.1)).map Prod.snd := by
  induction cols generalizing r with
  | nil => simp
  | cons c cs ih =>
    cases r with
    | nil => simp at h
    | cons v vs =>
      have hlen : vs.length = cs.length := by simpa using h
      rw [List.length_cons, List.range_succ_eq_map, List.zip_cons_cons]
      by_cases hc : p c = true
      · simp only [List.filter_cons, List.getD_cons_zero, hc, if_true,
          ite_true, List.map_cons, List.filter_map, List.map_map]
        rw [← ih vs hlen]
        rfl
      · have hcf : p c = false := by simpa using hc
        simp only [List.filter_cons, List.getD_cons_zero, hcf,
          List.map_cons, List.filter_map, List.map_map]
        simp only [Bool.false_eq_true, if_false, ite_false]
        rw [List.map_map, ← ih vs hlen]
        rfl

/-- C5: for every rectangular table, the aggregated series has one entry
per row; each entry is the arithmetic mean of the present matched cells of
that row, and a row whose matched cells are all missing aggregates to
`none` instead of failing. -/
theorem c5_rowwise_mean (t : LogTable) (p : String → Bool)
    (hw : ∀ r ∈ t.rows, r.length = t.columns.length)
    (hm : t.columns.filter p ≠ []) :
    (mean_series t p).length = t.rows.length ∧
    ∀ i, i < t.rows.length →
      ((matched_row_values t p i).filterMap id ≠ [] →
        (mean_series t p).getD i none =
          some (((matched_row_values t p i).filterMap id).sum /
            (((matched_row_values t p i).filterMap id).length : ℚ))) ∧
      ((matched_row_values t p i).filterMap id = [] →
        (mean_series t p).getD i none = none) := by
  constructor
  · simp [mean_series]
  · intro i hi
    have hgetD : (mean_series t p).getD i none =
        mean_skipna (row_values (t.rows.getD i []) (matched_columns t p)) := by
      unfold mean_series
      exact getD_map_of_lt _ _ _ hi _ _
    have hrv : row_values (t.rows.getD i []) (matched_columns t p) =
        matched_row_values t p i := by
      unfold row_values matched_columns matched_row_values
      exact row_values_matched t.columns (t.rows.getD i []) p
        (hw _ (getD_mem_of_lt _ _ hi _))
    rw [hgetD, hrv]
    unfold mean_skipna
    constructor
    · intro hne
      simp [List.length_eq_zero, hne]
    · intro hnil
      simp [hnil]

/-- C5 witness: `ok_table` with the utilization convention; row 2 has one
missing core value and still aggregates to the mean of the present ones. -/
theorem c5_witness :
    (mean_series ok_table match_util).length = ok_table.rows.length ∧
    (mean_series ok_table match_util).getD 2 none =
      some (((matched_row_values ok_table match_util 2).filterMap id).sum /
        (((matched_row_values ok_table match_util 2).filterMap id).length : ℚ)) := by
  have h := c5_rowwise_mean ok_table match_util (by decide) (by decide)
  exact ⟨h.1, (h.2 2 (by decide)).1 (by decide)⟩

/-! ## Claim C6: exact full-name matching -/

theorem match_util_iff (c : String) : match_util c = true ↔ util_exact c := by
  unfold match_util util_exact digits1
  constructor
  · intro hm
    simp only [Bool.and_eq_true, beq_iff_eq, Bool.not_eq_true',
      List.all_eq_true] at hm
    obtain ⟨htake, hemp, hall⟩ := hm
    refine ⟨c.toList.drop 10, ?_, fun ch hch => hall ch hch, ?_⟩
    · intro hnil
      rw [hnil] at hemp
      simp at hemp
    · conv_lhs => rw [← List.take_append_drop 10 c.toList]
      rw [htake]
  · rintro ⟨ds, hne, hdig, heq⟩
    obtain ⟨d, ds', rfl⟩ := List.exists_cons_of_ne_nil hne
    have h10 : ("Util:Core ".toList).length = 10 := rfl
    rw [heq, ← h10, List.take_left, List.drop_left]
    simp [List.all_eq_true, hdig]
    exact fun x hx => hdig x (List.mem_cons_of_mem d hx)

theorem match_freq_iff (c : String) : match_freq c = true ↔ freq_exact c := by
  unfold match_freq freq_exact digits1
  constructor
  · intro hm
    simp only [Bool.and_eq_true, beq_iff_eq, Bool.not_eq_true',
      List.all_eq_true] at hm
    obtain ⟨htake, hemp, hall⟩ := hm
    refine ⟨c.toList.drop 15, ?_, fun ch hch => hall ch hch, ?_⟩
    · intro hnil
      rw [hnil] at hemp
      simp at hemp
    · conv_lhs => rw [← List.take_append_drop 15 c.toList]
      rw [htake]
  · rintro ⟨ds, hne, hdig, heq⟩
    obtain ⟨d, ds', rfl⟩ := List.exists_cons_of_ne_nil hne
    have h15 : ("Frequency:Core ".toList).length = 15 := rfl
    rw [heq, ← h15, List.take_left, List.drop_left]
    simp [List.all_eq_true, hdig]
    exact fun x hx => hdig x (List.mem_cons_of_mem d hx)

theorem match_temp_iff (c : String) : match_temp c = true ↔ temp_exact c := by
  unfold match_temp temp_exact digits1
  constructor
  · intro hm
    simp only [Bool.and_eq_true, beq_iff_eq, Bool.not_eq_true',
      List.all_eq_true] at hm
    obtain ⟨⟨htake, hemp, hall⟩, hdrop⟩ := hm
    refine ⟨(c.toList.drop 9).take ((c.toList.drop 9).length - 2), ?_,
      fun ch hch => hall ch hch, ?_⟩
    · intro hnil
      rw [hnil] at hemp
      simp at hemp
    · conv_lhs => rw [← List.take_append_drop 9 c.toList]
      rw [htake]
      conv_lhs =>
        rw [← List.take_append_drop ((c.toList.drop 9).length - 2)
          (c.toList.drop 9)]
      rw [hdrop, List.append_assoc]
  · rintro ⟨ds, hne, hdig, heq⟩
    obtain ⟨d, ds', rfl⟩ := List.exists_cons_of_ne_nil hne
    dsimp only
    rw [heq, List.append_assoc]
    have h9 : ("Temp:Core".toList).length = 9 := rfl
    rw [← h9, List.take_left, List.drop_left]
    have hlen2 : ((d :: ds') ++ [',', '0']).length - 2 = (d :: ds').length := by
      simp
    rw [hlen2, List.take_left, List.drop_left]
    simp [List.all_eq_true, hdig]
    exact fun x hx => hdig x (List.mem_cons_of_mem d hx)

/-- C6: each metric's column selection is an exact full match of the fixed
convention — a name is selected iff it decomposes as the convention's
literal text with a non-empty digit core index — and in particular
`Util:Avg` and names merely containing a convention string as a proper
substring are never selected. -/
theorem c6_exact_full_match :
    (∀ c, match_util c = true ↔ util_exact c) ∧
    (∀ c, match_freq c = true ↔ freq_exact c) ∧
    (∀ c, match_temp c = true ↔ temp_exact c) ∧
    match_util "Util:Avg" = false ∧
    match_util "xUtil:Core 3" = false ∧
    match_util "Util:Core 3x" = false ∧
    match_freq "xFrequency:Core 1" = false ∧
    match_freq "Frequency:Core 1 " = false ∧
    match_temp "xTemp:Core1,0" = false ∧
    match_temp "Temp:Core1,0x" = false :=
  ⟨match_util_iff, match_freq_iff, match_temp_iff, by decide, by decide,
    by decide, by decide, by decide, by decide, by decide⟩

/-! ## Claim C10: threshold mode requires the `Util:Avg` column -/

/-- C10: in threshold-aligned mode, a table lacking a `Util:Avg` column
makes the per-log processing (and hence a composition containing it) fail
with a `KeyError`-style lookup error that is none of the spec's three
declared kinds; unaligned mode never performs the lookup and succeeds. -/
theorem c10_util_avg_required (t : LogTable) (mm a : Int)
    (h : "Util:Avg" ∉ t.columns) :
    plot_stui_log t mm (some a) = .error (.keyError "Util:Avg") ∧
    (∀ label, plot_stui_logs [(label, t)] (some a) mm =
      .error (.keyError "Util:Avg")) ∧
    (∀ l r, PlotError.keyError "Util:Avg" ≠ .timestampParse l r) ∧
    (∀ m l, PlotError.keyError "Util:Avg" ≠ .emptyMetric m l) ∧
    (∀ b, PlotError.keyError "Util:Avg" ≠ .noThresholdCrossing b) ∧
    (∃ cp, plot_stui_log t mm none = .ok cp) := by
  have hcol : col_series? t "Util:Avg" = none := col_series_isNone t _ h
  have hload : load_start_index t (some a) = .error (.keyError "Util:Avg") := by
    simp only [load_start_index, hcol]
  have hplot : plot_stui_log t mm (some a) = .error (.keyError "Util:Avg") := by
    simp only [plot_stui_log, hload]
  have hone : ∀ label, plot_columns (some a) mm [(label, t)] =
      .error (.keyError "Util:Avg") := by
    intro label
    simp only [plot_columns, hplot]
  refine ⟨hplot, ?_, fun l r hc => PlotError.noConfusion hc,
    fun m l hc => PlotError.noConfusion hc,
    fun b hc => PlotError.noConfusion hc, ⟨_, rfl⟩⟩
  intro label
  simp only [plot_stui_logs, hone]

/-- C10 witness: `no_avg_table` has per-core `Util:Core 0` data but no
`Util:Avg` column. -/
theorem c10_witness :
    ("Util:Core 0" ∈ no_avg_table.columns ∧
      match_util "Util:Core 0" = true) ∧
    (plot_stui_log no_avg_table 15 (some 50) =
      .error (.keyError "Util:Avg") ∧
    (∀ label, plot_stui_logs [(label, no_avg_table)] (some 50) 15 =
      .error (.keyError "Util:Avg")) ∧
    (∀ l r, PlotError.keyError "Util:Avg" ≠ .timestampParse l r) ∧
    (∀ m l, PlotError.keyError "Util:Avg" ≠ .emptyMetric m l) ∧
    (∀ b, PlotError.keyError "Util:Avg" ≠ .noThresholdCrossing b) ∧
    (∃ cp, plot_stui_log no_avg_table 15 none = .ok cp)) :=
  ⟨⟨by decide, by decide⟩, c10_util_avg_required no_avg_table 15 50 (by decide)⟩

/-! ## Claim C7: fixed grid geometry -/

/-- Shared helper: a successful per-log plot always carries the fixed axis
limits of `_plot_stui_log`, independent of the data. -/
theorem plot_stui_log_ok_fixed (t : LogTable) (mm : Int) (thr : Option Int)
    (cp : ColumnPlot) (h : plot_stui_log t mm thr = .ok cp) :
    cp.ylim_util = (-2, 102) ∧ cp.ylim_freq = (0, 5000) ∧
    cp.ylim_temp = (25, 110) ∧
    cp.xlim = ((if thr.isSome then -1 else 0), mm) ∧
    cp.xticks_major = py_range (major_range_max mm) 5 ∧
    cp.xticks_minor = py_range (major_range_max mm) 1 := by
  unfold plot_stui_log at h
  cases hl : load_start_index t thr with
  | error e =>
    rw [hl] at h
    exact Except.noConfusion h
  | ok i =>
    rw [hl] at h
    injection h with h
    subst h
    exact ⟨rfl, rfl, rfl, rfl, rfl, rfl⟩

/-- Shared helper: a successful composition loop yields one column per log,
each with the fixed geometry. -/
theorem plot_columns_ok (thr : Option Int) (mm : Int)
    (logs : List (String × LogTable)) (cols : List (String × ColumnPlot))
    (h : plot_columns thr mm logs = .ok cols) :
    cols.length = logs.length ∧
      ∀ c ∈ cols, c.2.ylim_util = (-2, 102) ∧ c.2.ylim_freq = (0, 5000) ∧
        c.2.ylim_temp = (25, 110) ∧
        c.2.xlim = ((if thr.isSome then -1 else 0), mm) := by
  induction logs generalizing cols with
  | nil =>
    unfold plot_columns at h
    injection h with h
    subst h
    simp
  | cons q rest ih =>
    obtain ⟨label, t⟩ := q
    unfold plot_columns at h
    cases hp : plot_stui_log t mm thr with
    | error e =>
      rw [hp] at h
      exact Except.noConfusion h
    | ok cp =>
      rw [hp] at h
      cases hr : plot_columns thr mm rest with
      | error e =>
        rw [hr] at h
        exact Except.noConfusion h
      | ok cps =>
        rw [hr] at h
        injection h with h
        subst h
        obtain ⟨hlen, hall⟩ := ih cps hr
        constructor
        · simp [hlen]
        · intro c hc
          rcases List.mem_cons.1 hc with hc | hc
          · subst hc
            obtain ⟨h1, h2, h3, h4, _, _⟩ :=
              plot_stui_log_ok_fixed t mm thr cp hp
            exact ⟨h1, h2, h3, h4⟩
          · exact hall c hc

/-- C7: a successful composition over N logs yields a 3-row grid with
exactly N columns, every column carrying the constant y-ranges
(utilization [-2, 102], frequency [0, 5000], temperature [25, 110]) and
the shared x-range (0 or -1 up to minutes-to-display), independent of the
data. -/
theorem c7_fixed_grid (logs : List (String × LogTable)) (thr : Option Int)
    (mm : Int) (fig : Figure) (h : plot_stui_logs logs thr mm = .ok fig) :
    fig.nrows = 3 ∧ fig.ncols = logs.length ∧
    fig.columnPlots.length = logs.length ∧
    ∀ c ∈ fig.columnPlots,
      c.2.ylim_util = (-2, 102) ∧ c.2.ylim_freq = (0, 5000) ∧
      c.2.ylim_temp = (25, 110) ∧
      c.2.xlim = ((if thr.isSome then -1 else 0), mm) := by
  unfold plot_stui_logs at h
  cases hc : plot_columns thr mm logs with
  | error e =>
    rw [hc] at h
    exact Except.noConfusion h
  | ok cols =>
    rw [hc] at h
    injection h with h
    subst h
    obtain ⟨h1, h2⟩ := plot_columns_ok thr mm logs cols hc
    exact ⟨rfl, rfl, h1, h2⟩

/-- C7 witness: one unaligned log versus two logs; same fixed rows and
ranges, column count equal to the log count. -/
theorem c7_witness :
    (fig_of (plot_stui_logs [("a", ok_table)] none 15)).nrows = 3 ∧
    (fig_of (plot_stui_logs [("a", ok_table)] none 15)).ncols = 1 ∧
    (fig_of (plot_stui_logs [("a", ok_table)] none 15)).columnPlots.length = 1 ∧
    ∀ c ∈ (fig_of (plot_stui_logs [("a", ok_table)] none 15)).columnPlots,
      c.2.ylim_util = (-2, 102) ∧ c.2.ylim_freq = (0, 5000) ∧
      c.2.ylim_temp = (25, 110) ∧
      c.2.xlim = ((if (none : Option Int).isSome then -1 else 0), 15) :=
  c7_fixed_grid [("a", ok_table)] none 15
    (fig_of (plot_stui_logs [("a", ok_table)] none 15)) rfl

/-! ## Claim C8: tick placement -/

theorem fdiv_five_eq_ediv (a : Int) : Int.fdiv a 5 = a / 5 :=
  Int.fdiv_eq_ediv a (by norm_num)

theorem mem_py_range (stop step x : Int) :
    x ∈ py_range stop step ↔
      ∃ k : Nat, k < ((max stop 0 + step - 1) / step).toNat ∧
        step * (k : Int) = x := by
  unfold py_range
  simp only [List.mem_map, List.mem_range]

/-- C8: for every non-negative minutes-to-display value, the major x-ticks
are exactly the multiples of 5 between 0 and the upper bound — including
the last multiple-of-5 boundary `5 * (mm / 5)` — and the minor ticks are
every integer minute over that same range. -/
theorem c8_tick_scheme (mm : Int) (h : 0 ≤ mm) :
    (∀ x : Int, x ∈ py_range (major_range_max mm) 5 ↔
      (5 ∣ x ∧ 0 ≤ x ∧ x ≤ mm)) ∧
    (∀ x : Int, x ∈ py_range (major_range_max mm) 1 ↔
      (0 ≤ x ∧ x ≤ 5 * (mm / 5))) ∧
    (5 * (mm / 5)) ∈ py_range (major_range_max mm) 5 := by
  have hmr : major_range_max mm = (mm / 5) * 5 + 1 := by
    unfold major_range_max
    rw [fdiv_five_eq_ediv mm]
  have hmax : max ((mm / 5) * 5 + 1) 0 = (mm / 5) * 5 + 1 :=
    max_eq_left (by omega)
  refine ⟨?_, ?_, ?_⟩
  · intro x
    rw [mem_py_range, hmr, hmax]
    have hcount : ((mm / 5) * 5 + 1 + 5 - 1) / 5 = mm / 5 + 1 := by omega
    rw [hcount]
    constructor
    · rintro ⟨k, hk, rfl⟩
      exact ⟨dvd_mul_right 5 (k : Int), by omega, by omega⟩
    · rintro ⟨⟨c, rfl⟩, h0, hle⟩
      exact ⟨c.toNat, by omega, by omega⟩
  · intro x
    rw [mem_py_range, hmr, hmax]
    have hcount : ((mm / 5) * 5 + 1 + 1 - 1) / 1 = (mm / 5) * 5 + 1 := by
      omega
    rw [hcount]
    constructor
    · rintro ⟨k, hk, rfl⟩
      exact ⟨by omega, by omega⟩
    · rintro ⟨h0, hle⟩
      exact ⟨x.toNat, by omega, by omega⟩
  · rw [mem_py_range, hmr, hmax]
    have hcount : ((mm / 5) * 5 + 1 + 5 - 1) / 5 = mm / 5 + 1 := by omega
    rw [hcount]
    exact ⟨(mm / 5).toNat, by omega, by omega⟩

/-- C8 witness: minutes-to-display 17 — major ticks are the multiples of 5
up to the boundary 15, minor ticks every minute up to 15. -/
theorem c8_witness :
    (∀ x : Int, x ∈ py_range (major_range_max 17) 5 ↔
      (5 ∣ x ∧ 0 ≤ x ∧ x ≤ 17)) ∧
    (∀ x : Int, x ∈ py_range (major_range_max 17) 1 ↔
      (0 ≤ x ∧ x ≤ 5 * ((17 : Int) / 5))) ∧
    (5 * ((17 : Int) / 5)) ∈ py_range (major_range_max 17) 5 :=
  c8_tick_scheme 17 (by norm_num)

/-! ## Claim C9: one failing log aborts the whole composition -/

/-- Shared helper: with every earlier log succeeding, the first failing
log's error is the loop's result. -/
theorem plot_columns_append_error (thr : Option Int) (mm : Int)
    (pre post : List (String × LogTable)) (label : String) (t : LogTable)
    (e : PlotError)
    (hok : ∀ q ∈ pre, ∃ cp, plot_stui_log q.2 mm thr = .ok cp)
    (hfail : plot_stui_log t mm thr = .error e) :
    plot_columns thr mm (pre ++ (label, t) :: post) = .error e := by
  revert hok
  induction pre with
  | nil =>
    intro _
    rw [List.nil_append]
    unfold plot_columns
    rw [hfail]
  | cons q rest ih =>
    intro hok
    obtain ⟨ql, qt⟩ := q
    obtain ⟨cp, hcp⟩ := hok (ql, qt) (by simp)
    rw [List.cons_append]
    unfold plot_columns
    rw [hcp, ih (fun q hq => hok q (List.mem_cons_of_mem _ hq))]

/-- C9: if the per-log processing of some log fails (its earlier siblings
succeeding), the whole composition returns exactly that error, unmodified,
and no render action — neither saving to a file nor displaying — takes
place. -/
theorem c9_abort_on_error (pre post : List (String × LogTable))
    (label : String) (t : LogTable) (figure_path : Option String)
    (thr : Option Int) (mm : Int) (e : PlotError)
    (hok : ∀ q ∈ pre, ∃ cp, plot_stui_log q.2 mm thr = .ok cp)
    (hfail : plot_stui_log t mm thr = .error e) :
    plot_stui_logs (pre ++ (label, t) :: post) thr mm = .error e ∧
    run_plot (pre ++ (label, t) :: post) figure_path thr mm = .error e ∧
    ∀ act, run_plot (pre ++ (label, t) :: post) figure_path thr mm ≠
      .ok act := by
  have hcols : plot_columns thr mm (pre ++ (label, t) :: post) = .error e :=
    plot_columns_append_error thr mm pre post label t e hok hfail
  have hlogs : plot_stui_logs (pre ++ (label, t) :: post) thr mm =
      .error e := by
    unfold plot_stui_logs
    rw [hcols]
  have hrun : run_plot (pre ++ (label, t) :: post) figure_path thr mm =
      .error e := by
    unfold run_plot
    rw [hlogs]
  refine ⟨hlogs, hrun, ?_⟩
  intro act hact
  rw [hrun] at hact
  exact Except.noConfusion hact

/-- C9 witness: the first log succeeds, the second lacks `Util:Avg` in
threshold mode; the composition returns exactly the second log's lookup
error and produces no render action. -/
theorem c9_witness :
    plot_stui_logs [("a", ok_table), ("b", no_avg_table)] (some 50) 15 =
      .error (.keyError "Util:Avg") ∧
    run_plot [("a", ok_table), ("b", no_avg_table)] (some "out.png")
      (some 50) 15 = .error (.keyError "Util:Avg") ∧
    ∀ act, run_plot [("a", ok_table), ("b", no_avg_table)] (some "out.png")
      (some 50) 15 ≠ .ok act := by
  have h := c9_abort_on_error [("a", ok_table)] [] "b" no_avg_table
    (some "out.png") (some 50) 15 (.keyError "Util:Avg")
    (by
      intro q hq
      rw [List.mem_singleton] at hq
      subst hq
      exact ⟨_, rfl⟩)
    (by rfl)
  exact h
